import Mathlib

/-!
The `checks` package of redalert: the file checker and the ulimit checker.

A shallow embedding of `src/checks/file.go` and `src/checks/ulimits.go`.

* Go maps (`map[string]interface{}`) are association lists read with `mapGet`
  (the comma-ok lookup), `mapIndex` (the plain index expression, which yields the
  zero value for an absent key) and written with `mapSet`.
* A Go map is a reference: a constructor that assigns into its argument map changes
  the map of its caller.  Constructors therefore return the final map next to their
  result.  A map value may be nil (`none`): a nil map reads as the empty map, and an
  assignment into it panics.
* The operating system is an input: `os.Stat` is a function from a path to the error
  it returns, `syscall.Getrlimit` a function from a resource identifier to an error
  or a limit pair.  `Check` returns, next to its error value, the list of events
  (system calls made, lines printed) in program order.
* `requiredArgs`, `decodeFromArgs`, the `Checker` interface and the declaration of
  `availableChecks` belong to another file of the package; they are modelled from
  the specification and marked so.
-/

namespace Checks

/-! ## Values, argument maps, errors -/

/-- A configuration value (`interface{}` as produced by the configuration loader):
a string, an integer or a boolean. -/
inductive Value
  | str (s : String)
  | int (i : Int)
  | bool (b : Bool)
  deriving DecidableEq, Repr

/-- The name of the dynamic type of a value. -/
def Value.typeName : Value → String
  | .str _ => "string"
  | .int _ => "int"
  | .bool _ => "bool"

/-- Comma-ok lookup `v, ok := m[k]`. -/
def mapGet {β : Type} : List (String × β) → String → Option β
  | [], _ => none
  | (k, v) :: rest, key => if k = key then some v else mapGet rest key

/-- Index expression `m[k]`: the zero value `zero` when the key is absent. -/
def mapIndex {β : Type} (m : List (String × β)) (key : String) (zero : β) : β :=
  match mapGet m key with
  | some v => v
  | none => zero

/-- Assignment `m[k] = v`: the entry for `k` is replaced, or added. -/
def mapSet {β : Type} (m : List (String × β)) (key : String) (v : β) : List (String × β) :=
  (key, v) :: m.filter (fun e => decide (e.1 ≠ key))

/-- The entries of an argument map, `map[string]interface{}`.  A map value as a
caller holds it is an `Option Args`, `none` being the nil map. -/
abbrev Args := List (String × Value)

/-- How a call ends: it returns a value, or it panics. -/
inductive Call (α : Type)
  | returned (value : α)
  | panicked (msg : String)
  deriving DecidableEq, Repr

/-- The entries a read of a map value sees: a nil map reads as the empty map. -/
def entries (m : Option Args) : Args :=
  match m with
  | some args => args
  | none => []

/-- Go `error` values of the package.  `Errorf` is an error built by `fmt.Errorf`
in the sources; `MissingArgument` and `TypeMismatch` are the error kinds the
specification gives to `requiredArgs` and `decodeFromArgs`. -/
inductive CheckError
  | MissingArgument (key : String)
  | TypeMismatch (field : String) (actual : String)
  | Errorf (msg : String)
  deriving DecidableEq, Repr

/-! ## The operating system as an input -/

/-- An operating-system error number (`syscall.Errno`). -/
abbrev Errno := Nat

/-- Error number of "no such file or directory". -/
def ENOENT : Errno := 2

/-- Error number of "permission denied". -/
def EACCES : Errno := 13

/-- Rendering of an error number by `err.Error()`: the texts package `syscall` has
for the numbers 2, 13 and 22, and for the other numbers the rendering it has for a
number without a text. -/
def Errno.Error (e : Errno) : String :=
  if e = 2 then "no such file or directory"
  else if e = 13 then "permission denied"
  else if e = 22 then "invalid argument"
  else "errno " ++ toString e

/-- The test `os.IsNotExist(err)`: true exactly for the not-found error, false for
`nil` and for every other error. -/
def os.IsNotExist (err : Option Errno) : Bool :=
  match err with
  | some e => decide (e = ENOENT)
  | none => false

/-- The limit pair `syscall.Rlimit`. -/
structure Rlimit where
  Cur : Nat
  Max : Nat
  deriving DecidableEq, Repr

/-- What a call of `Check` does besides returning: the system calls it makes and
the lines it writes to standard output, in program order. -/
inductive Event
  | Stat (name : String)
  | Getrlimit (resource : Int)
  | Println (text : String)
  deriving DecidableEq, Repr

/-! ## `file.go` -/

/-- The struct `FileChecker` (file.go, lines 41-44). -/
structure FileChecker where
  Exists : Bool
  Name : String
  deriving DecidableEq, Repr

/-- The method `FileChecker.Check` (file.go, lines 47-58).  `stat` gives the error
returned by `os.Stat` for a path (`none` is `nil`: the path exists). -/
def FileChecker.Check (stat : String → Option Errno) (fc : FileChecker) :
    Option CheckError × List Event :=
  let err := stat fc.Name
  let isNotExist := os.IsNotExist err
  if isNotExist && fc.Exists then
    (some (.Errorf (fc.Name ++ " doesn't exist and should")), [.Stat fc.Name])
  else if !isNotExist && !fc.Exists then
    (some (.Errorf (fc.Name ++ " does exist and shouldn't")), [.Stat fc.Name])
  else
    (none, [.Stat fc.Name])

/-! ## `ulimits.go` -/

/-- The struct `UlimitChecker` (ulimits.go, lines 27-31); `Limit` is a `uint64`,
a natural number below `2^64`. -/
structure UlimitChecker where
  Item : String
  Limit : Nat
  IsHard : Bool
  deriving DecidableEq, Repr

/-- The interface `Checker`, as the sum of the two types of the sources that are
returned as one. -/
inductive Checker
  | file (fc : FileChecker)
  | ulimit (uc : UlimitChecker)
  deriving DecidableEq, Repr

/-! ## Argument validation and decoding -/

/-- Modelled from the spec: `requiredArgs(args, keyNames...)` is defined in another
file of the package.  It "fails with a `MissingArgument` error naming the first absent required
key" and returns `nil` (`none`) when every listed key is present. -/
def requiredArgs (args : Args) : List String → Option CheckError
  | [] => none
  | key :: rest =>
    match mapGet args key with
    | some _ => requiredArgs args rest
    | none => some (.MissingArgument key)

/-- Modelled from the spec: coercion of a value to a string field. -/
def coerceString : Value → Option String
  | .str s => some s
  | _ => none

/-- Modelled from the spec: coercion of a value to a boolean field. -/
def coerceBool : Value → Option Bool
  | .bool b => some b
  | _ => none

/-- Modelled from the spec: coercion of a value to an unsigned integer field
(`uint64`); an integer is converted as Go converts to `uint64`, modulo `2^64`. -/
def coerceUint64 : Value → Option Nat
  | .int i => some (i % (2 ^ 64 : Int)).toNat
  | _ => none

/-- The lowercase form of a key or field name, letter by letter. -/
def lowerKey (s : String) : String := String.mk (s.data.map Char.toLower)

/-- Modelled from the spec: the value `decodeFromArgs` finds for a field.  It
"looks up the matching key (case-insensitive match against a lowercase field name
is acceptable policy)": a key matches a field when both have the same lowercase
form.  The spec does not say which of several matching keys is used; here the key
spelled as the field is declared comes first, then the first matching entry of the
map. -/
def matchingValue (args : Args) (field : String) : Option Value :=
  match mapGet args field with
  | some v => some v
  | none =>
    match args.find? (fun e => decide (lowerKey e.1 = lowerKey field)) with
    | some e => some e.2
    | none => none

/-- Modelled from the spec: one field of `decodeFromArgs`.  A field "without a
corresponding key" is "left at" its current value; a value that cannot be coerced
fails "with a `TypeMismatch` error naming the field and the received value's
actual type". -/
def decodeField {τ : Type} (args : Args) (field : String) (coerce : Value → Option τ)
    (current : τ) : Except CheckError τ :=
  match matchingValue args field with
  | none => .ok current
  | some v =>
    match coerce v with
    | some x => .ok x
    | none => .error (.TypeMismatch field v.typeName)

/-- The struct types `decodeFromArgs` can fill: the fields of the target in
declaration order. -/
class DecodeTarget (α : Type) where
  decodeFields : Args → α → Except CheckError α

/-- Modelled from the spec: fields of `FileChecker` in declaration order,
`Exists` (boolean) and `Name` (string). -/
instance : DecodeTarget FileChecker where
  decodeFields args fc :=
    match decodeField args "Exists" coerceBool fc.Exists with
    | .error e => .error e
    | .ok ex =>
      match decodeField args "Name" coerceString fc.Name with
      | .error e => .error e
      | .ok nm => .ok { Exists := ex, Name := nm }

/-- Modelled from the spec: fields of `UlimitChecker` in declaration order, `Item`
(string), `Limit` (unsigned integer) and `IsHard` (boolean).  Any key that matches
none of them, "type" among them, is ignored ("Unrecognized keys are ignored"). -/
instance : DecodeTarget UlimitChecker where
  decodeFields args uc :=
    match decodeField args "Item" coerceString uc.Item with
    | .error e => .error e
    | .ok it =>
      match decodeField args "Limit" coerceUint64 uc.Limit with
      | .error e => .error e
      | .ok lim =>
        match decodeField args "IsHard" coerceBool uc.IsHard with
        | .error e => .error e
        | .ok hard => .ok { Item := it, Limit := lim, IsHard := hard }

/-- Modelled from the spec: `decodeFromArgs(args, target)` is defined in another
file of the package.  It fills the fields of the target from the map and reports the first field
whose value cannot be coerced; the map is only read.  The result is the error, or
the target as filled. -/
def decodeFromArgs {α : Type} [DecodeTarget α] (args : Args) (into : α) :
    Except CheckError α :=
  DecodeTarget.decodeFields args into

/-! ## `file.go`: construction and registration -/

/-- The method `FileChecker.FromArgs` (file.go, lines 62-76).  The result is the Go
pair `(Checker, error)`.  The map is only read, so the method is given its
entries. -/
def FileChecker.FromArgs (fc : FileChecker) (args : Args) :
    Option Checker × Option CheckError :=
  match requiredArgs args ["name"] with
  | some err => (none, some err)
  | none =>
    match decodeFromArgs args fc with
    | .error err => (none, some err)
    | .ok fc1 =>
      let existsGiven := (mapGet args "exists").isSome
      let fc2 : FileChecker :=
        if !fc1.Exists && !existsGiven then { fc1 with Exists := true } else fc1
      (some (.file fc2), none)

/-- A registered constructor, `func(args map[string]interface{}) (Checker, error)`,
called with a map value: it returns the pair together with the map value as the
call leaves it, or it panics. -/
abbrev Constructor :=
  Option Args → Call ((Option Checker × Option CheckError) × Option Args)

/-- The registry, a map from check-type name to constructor. -/
abbrev Registry := List (String × Constructor)

/-- The function literal registered as "file-exists" (file.go, lines 9-11). -/
def fileExistsConstructor : Constructor := fun m =>
  .returned (FileChecker.FromArgs { Exists := false, Name := "" } (entries m), m)

/-- The function literal registered as "file-does-not-exist" (file.go, lines
13-16): it assigns `args["exists"] = false` in the map it was given.  On a nil map
that assignment panics ("assignment to entry in nil map"). -/
def fileDoesNotExistConstructor : Constructor := fun m =>
  match m with
  | none => .panicked "assignment to entry in nil map"
  | some args =>
    let args1 := mapSet args "exists" (.bool false)
    .returned (FileChecker.FromArgs { Exists := false, Name := "" } args1, some args1)

/-- The function `init` of file.go (lines 8-17), as a change of the registry.
`ulimits.go` has no `init` function. -/
def init (availableChecks : Registry) : Registry :=
  let r1 := mapSet availableChecks "file-exists" fileExistsConstructor
  mapSet r1 "file-does-not-exist" fileDoesNotExistConstructor

/-- Modelled from the spec: the declaration of `availableChecks` is in another file
of the package.  The registry is "populated at process start": it is empty before
the `init` functions run, and of file.go and ulimits.go only file.go has one. -/
def availableChecks : Registry := init []

/-! ## `ulimits.go` -/

/-- The constants of package `syscall` that ulimits.go names.  They belong to the
platform, not to this package, and are a parameter of everything that uses them. -/
structure SyscallConsts where
  RLIMIT_CORE : Int
  RLIMIT_DATA : Int
  RLIMIT_FSIZE : Int
  RLIMIT_MEMLOCK : Int
  RLIMIT_NOFILE : Int
  RLIMIT_RSS : Int
  RLIMIT_STACK : Int
  RLIMIT_CPU : Int
  RLIMIT_NPROC : Int
  RLIMIT_AS : Int
  RLIMIT_MAXLOGINS : Int
  RLIMIT_MAXSYSLOGINS : Int
  RLIMIT_PRIORITY : Int
  RLIMIT_LOCKS : Int
  RLIMIT_SIGPENDING : Int
  RLIMIT_MSGQUEUE : Int
  RLIMIT_NICE : Int
  RLIMIT_RTPRIO : Int
  RLIM_INFINITY : Int

/-- The table `limitsByName` (ulimits.go, lines 35-54). -/
def limitsByName (c : SyscallConsts) : List (String × Int) :=
  [ ("core", c.RLIMIT_CORE),
    ("data", c.RLIMIT_DATA),
    ("fsize", c.RLIMIT_FSIZE),
    ("memlock", c.RLIMIT_MEMLOCK),
    ("nofile", c.RLIMIT_NOFILE),
    ("rss", c.RLIMIT_RSS),
    ("stack", c.RLIMIT_STACK),
    ("cpu", c.RLIMIT_CPU),
    ("nproc", c.RLIMIT_NPROC),
    ("as", c.RLIMIT_AS),
    ("maxlogins", c.RLIMIT_MAXLOGINS),
    ("maxsyslogins", c.RLIMIT_MAXSYSLOGINS),
    ("priority", c.RLIMIT_PRIORITY),
    ("locks", c.RLIMIT_LOCKS),
    ("sigpending", c.RLIMIT_SIGPENDING),
    ("msgqueue", c.RLIMIT_MSGQUEUE),
    ("nice", c.RLIMIT_NICE),
    ("rtprio", c.RLIMIT_RTPRIO) ]

/-- The method `UlimitChecker.Check` (ulimits.go, lines 58-85), statement by
statement.  The Go compiler rejects the function as written (undeclared names,
block-local variables that are never used, a `uint64` compared with `-1`), so no
run of it exists; the definition is the reading of its text under the scoping
rules of Go, and serves to show where the text departs from what it sets out to
do.  The call of `Getrlimit` at line 61 and the printing at lines 64-66 are
well-formed.

* Line 61: `limitsByName[uc.Item]` is a plain index expression; for an item that is
  not in the table it is the zero value `0`.  `rlimit` (lines 72, 75) is the
  variable `rLimit` of line 60, which keeps its zero value when the call fails.
* Lines 64-66: an error of `Getrlimit` is printed with `fmt.Println`; the function
  goes on.
* Lines 68-76: `limitToCheck` and `HardOrSoft` are declared at function level with
  their zero values.  Inside both branches of the `if` they are the left side of
  `:=`, a short variable declaration, which in a nested block declares new
  variables of that block; the function-level variables are not assigned.
* Lines 78-82: `uc.Limit` is a `uint64` and is compared with the integer `-1`; the
  names `LimitToCheck` and `HardOrSort` in the argument lists are the
  function-level `limitToCheck` and `HardOrSoft`, the only variables of those
  names in scope there. -/
def UlimitChecker.Check (c : SyscallConsts) (getrlimit : Int → Except Errno Rlimit)
    (uc : UlimitChecker) : Option CheckError × List Event :=
  let resource := mapIndex (limitsByName c) uc.Item 0
  let called : Rlimit × Option Errno :=
    match getrlimit resource with
    | .ok r => (r, none)
    | .error e => ({ Cur := 0, Max := 0 }, some e)
  let rLimit := called.1
  let err := called.2
  let events : List Event :=
    match err with
    | some e => [.Getrlimit resource, .Println ("Error Getting Rlimit  " ++ e.Error ++ "\n")]
    | none => [.Getrlimit resource]
  let limitToCheck : Nat := 0
  let HardOrSoft : String := ""
  let _blockLocal : String × Nat :=
    if uc.IsHard then ("hard", rLimit.Max) else ("soft", rLimit.Cur)
  if (uc.Limit : Int) == -1 && (limitToCheck : Int) != c.RLIM_INFINITY then
    (some (.Errorf ("Process " ++ HardOrSoft ++ " ulimit (" ++ toString limitToCheck
        ++ ") of type \"" ++ uc.Item ++ "\" is lower than required (unlimited)")), events)
  else if limitToCheck < uc.Limit then
    (some (.Errorf ("Process " ++ HardOrSoft ++ " ulimit (" ++ toString limitToCheck
        ++ ") of type \"" ++ uc.Item ++ "\" is lower than required ("
        ++ toString uc.Limit ++ ")")), events)
  else
    (none, events)

/-- The method `UlimitChecker.FromArgs` (ulimits.go, lines 99-117).  Lines 112-114
read and assign `uc.Exists`; the struct `UlimitChecker` declares no field of that
name (the Go compiler rejects the lines), so the statement is kept as a local
value of its own: it assigns none of `Item`, `Limit` and `IsHard`, and the checker
returned is the one `decodeFromArgs` filled.  The returns at lines 100-110 come
before those lines. -/
def UlimitChecker.FromArgs (uc : UlimitChecker) (args : Args) :
    Option Checker × Option CheckError :=
  match requiredArgs args ["item"] with
  | some err => (none, some err)
  | none =>
    match requiredArgs args ["limit"] with
    | some err => (none, some err)
    | none =>
      match decodeFromArgs args uc with
      | .error err => (none, some err)
      | .ok uc1 =>
        let existsGiven := (mapGet args "type").isSome
        let ucExists : Bool := false
        let _ucExists : Bool := if !ucExists && !existsGiven then true else ucExists
        (some (.ulimit uc1), none)

/-- A sample platform for closed statements: the identifiers of the resource
limits in the Linux kernel headers (`sys/resource.h`).  Package `syscall` itself
declares only seven of the eighteen names on Linux (AS, CORE, CPU, DATA, FSIZE,
NOFILE, STACK); "maxlogins", "maxsyslogins" and "priority" are no kernel limits
and take the numbers `pam_limits` uses for them.  `RLIM_INFINITY` is the all-ones
value the kernel reports in the `uint64` fields of `Rlimit`; the untyped constant
of package `syscall` on Linux is `-1`. -/
def linuxConsts : SyscallConsts where
  RLIMIT_CPU := 0
  RLIMIT_FSIZE := 1
  RLIMIT_DATA := 2
  RLIMIT_STACK := 3
  RLIMIT_CORE := 4
  RLIMIT_RSS := 5
  RLIMIT_NPROC := 6
  RLIMIT_NOFILE := 7
  RLIMIT_MEMLOCK := 8
  RLIMIT_AS := 9
  RLIMIT_LOCKS := 10
  RLIMIT_SIGPENDING := 11
  RLIMIT_MSGQUEUE := 12
  RLIMIT_NICE := 13
  RLIMIT_RTPRIO := 14
  RLIMIT_MAXLOGINS := 17
  RLIMIT_MAXSYSLOGINS := 18
  RLIMIT_PRIORITY := 19
  RLIM_INFINITY := 2 ^ 64 - 1

/-! ## Vocabulary of the claims -/

/-- The text `msg` contains the text `part` as a contiguous piece. -/
def textContains (msg part : String) : Prop := part.data <:+: msg.data

instance (msg part : String) : Decidable (textContains msg part) :=
  inferInstanceAs (Decidable (part.data <:+: msg.data))

/-- The constructor "file-exists" called with the argument map in which "exists"
has been set to false: the reference `fileDoesNotExistConstructor` is compared
with. -/
def fileExistsOnExistsFalse (args : Args) :
    Call ((Option Checker × Option CheckError) × Option Args) :=
  fileExistsConstructor (some (mapSet args "exists" (.bool false)))

/-- No key of the map other than `key` itself has the lowercase form `key`: the
map holds no second spelling (such as "Exists" for "exists") of the key. -/
def noCaseVariant (args : Args) (key : String) : Prop :=
  ∀ e ∈ args, lowerKey e.1 = key → e.1 = key

instance (args : Args) (key : String) : Decidable (noCaseVariant args key) :=
  inferInstanceAs (Decidable (∀ e ∈ args, lowerKey e.1 = key → e.1 = key))

end Checks

namespace Checks

/-! ## Lemmas on maps -/

theorem mapGet_filter_ne {β : Type} (m : List (String × β)) (key other : String)
    (h : other ≠ key) :
    mapGet (m.filter (fun e => decide (e.1 ≠ key))) other = mapGet m other := by
  induction m with
  | nil => rfl
  | cons e rest ih =>
    obtain ⟨k, v⟩ := e
    rw [List.filter_cons]
    by_cases hk : k = key
    · have hne : ¬ k = other := fun hko => h (hko.symm.trans hk)
      have hdrop : decide (k ≠ key) = false := by simp [hk]
      simp only [hdrop, Bool.false_eq_true, if_false, mapGet, hne]
      exact ih
    · have hkeep : decide (k ≠ key) = true := by simp [hk]
      simp only [hkeep, if_true, mapGet]
      by_cases hko : k = other
      · simp only [hko, if_true]
      · simp only [hko, if_false]
        exact ih

theorem mapGet_mapSet_self {β : Type} (m : List (String × β)) (key : String) (v : β) :
    mapGet (mapSet m key v) key = some v := by
  simp [mapSet, mapGet]

theorem mapGet_mapSet_of_ne {β : Type} (m : List (String × β)) (key other : String) (v : β)
    (h : other ≠ key) :
    mapGet (mapSet m key v) other = mapGet m other := by
  have hne : ¬ key = other := fun hko => h hko.symm
  unfold mapSet
  simp only [mapGet, hne, if_false]
  exact mapGet_filter_ne m key other h

theorem mem_of_mapGet {β : Type} (m : List (String × β)) (key : String) (v : β)
    (h : mapGet m key = some v) : (key, v) ∈ m := by
  induction m with
  | nil => simp [mapGet] at h
  | cons e rest ih =>
    obtain ⟨k, w⟩ := e
    by_cases hk : k = key
    · simp only [mapGet, hk, if_true] at h
      have hw : w = v := Option.some.inj h
      simp [hk, hw]
    · simp only [mapGet, hk, if_false] at h
      exact List.mem_cons_of_mem _ (ih h)

theorem mem_mapSet {β : Type} (m : List (String × β)) (key : String) (v : β)
    (e : String × β) (h : e ∈ mapSet m key v) : e = (key, v) ∨ e ∈ m := by
  unfold mapSet at h
  rcases List.mem_cons.mp h with h1 | h2
  · exact Or.inl h1
  · exact Or.inr (List.mem_of_mem_filter h2)

/-! ## Lemmas on the decoder -/

/-- Setting a key that has no second spelling of `key` keeps the map free of second
spellings of `key`. -/
theorem noCaseVariant_mapSet (args : Args) (key set : String) (v : Value)
    (hset : lowerKey set = key → set = key) (h : noCaseVariant args key) :
    noCaseVariant (mapSet args set v) key := by
  intro e he hlow
  rcases mem_mapSet args set v e he with h1 | h2
  · subst h1
    exact hset hlow
  · exact h e h2 hlow

/-- In a map without a second spelling of `key`, the first entry whose key has the
lowercase form `key` is the entry of `key`. -/
theorem find_lower_of_noCaseVariant (args : Args) (key : String)
    (hself : lowerKey key = key) (h : noCaseVariant args key) :
    (match args.find? (fun e => decide (lowerKey e.1 = key)) with
      | some e => some e.2
      | none => none) = mapGet args key := by
  induction args with
  | nil => rfl
  | cons e rest ih =>
    obtain ⟨k, w⟩ := e
    have hrest : noCaseVariant rest key := fun e he => h e (List.mem_cons_of_mem _ he)
    by_cases hk : lowerKey k = key
    · have hkk : k = key := h (k, w) (List.mem_cons_self _ _) hk
      simp [List.find?, mapGet, hkk, hself]
    · have hkk : ¬ k = key := fun hkey => hk (hkey ▸ hself)
      simp only [List.find?, hk, decide_False, mapGet, hkk, if_false]
      exact ih hrest

/-- In a map without a second spelling of `key`, the field whose lowercase form is
`key` is decoded from the entry of `key`. -/
theorem matchingValue_of_noCaseVariant (args : Args) (field key : String)
    (hlow : lowerKey field = key) (hself : lowerKey key = key) (hne : field ≠ key)
    (h : noCaseVariant args key) :
    matchingValue args field = mapGet args key := by
  have hnone : mapGet args field = none := by
    cases hg : mapGet args field with
    | none => rfl
    | some v => exact absurd (h (field, v) (mem_of_mapGet args field v hg) hlow) hne
  unfold matchingValue
  rw [hnone, hlow]
  exact find_lower_of_noCaseVariant args key hself h

/-! ## Lemmas on `FileChecker` -/

/-- The three outcomes of `FileChecker.Check`, by the two booleans it tests. -/
theorem fileChecker_check_fst (stat : String → Option Errno) (fc : FileChecker) :
    (FileChecker.Check stat fc).1 =
      if os.IsNotExist (stat fc.Name) && fc.Exists then
        some (.Errorf (fc.Name ++ " doesn't exist and should"))
      else if !os.IsNotExist (stat fc.Name) && !fc.Exists then
        some (.Errorf (fc.Name ++ " does exist and shouldn't"))
      else none := by
  unfold FileChecker.Check
  simp only []
  split
  · rfl
  · split <;> rfl

/-- With a string under "name", in a map without second spellings of "name" and
"exists", the decoder fills `Name`, and `FromArgs` returns a checker whose `Exists`
is the decoded one, or `true` when the key "exists" is absent and the decoded one
is false. -/
theorem fileChecker_fromArgs_of_name (fc : FileChecker) (args : Args) (n : String)
    (hn : mapGet args "name" = some (.str n))
    (hname : noCaseVariant args "name") (hexists : noCaseVariant args "exists") :
    FileChecker.FromArgs fc args =
      match mapGet args "exists" with
      | none => (some (.file { Exists := true, Name := n }), none)
      | some (.bool b) => (some (.file { Exists := b, Name := n }), none)
      | some v => (none, some (.TypeMismatch "Exists" v.typeName)) := by
  have hmn : matchingValue args "Name" = mapGet args "name" :=
    matchingValue_of_noCaseVariant args "Name" "name" (by decide) (by decide) (by decide) hname
  have hme : matchingValue args "Exists" = mapGet args "exists" :=
    matchingValue_of_noCaseVariant args "Exists" "exists" (by decide) (by decide) (by decide)
      hexists
  unfold FileChecker.FromArgs
  simp only [requiredArgs, hn, decodeFromArgs, DecodeTarget.decodeFields, decodeField,
    coerceString, hmn, hme]
  cases hex : mapGet args "exists" with
  | none => cases hfe : fc.Exists <;> simp [hfe]
  | some v => cases v <;> simp [coerceBool]

/-! ## Lemmas on `UlimitChecker` -/

/-- No value of the `uint64` field `Limit` is the integer `-1`. -/
theorem ulimitChecker_limit_ne_neg_one (uc : UlimitChecker) : ((uc.Limit : Int) == -1) = false := by
  have h : (uc.Limit : Int) ≠ -1 := by omega
  exact beq_eq_false_iff_ne.mpr h

/-- The error value of `UlimitChecker.Check` is decided by `Limit` alone: nil for
`Limit = 0`, and otherwise the failure that reports the function-level
`limitToCheck` and `HardOrSoft`, which are `0` and the empty string. -/
theorem ulimitChecker_check_fst (c : SyscallConsts) (getrlimit : Int → Except Errno Rlimit)
    (uc : UlimitChecker) :
    (UlimitChecker.Check c getrlimit uc).1 =
      if 0 < uc.Limit then
        some (.Errorf ("Process " ++ "" ++ " ulimit (" ++ toString 0
          ++ ") of type \"" ++ uc.Item ++ "\" is lower than required ("
          ++ toString uc.Limit ++ ")"))
      else none := by
  unfold UlimitChecker.Check
  simp only [ulimitChecker_limit_ne_neg_one, Bool.false_and, Bool.false_eq_true, if_false]
  split <;> rfl

/-- The first event of `UlimitChecker.Check` is the call of `Getrlimit` with the
table entry of the item, or `0` when the table has none. -/
theorem ulimitChecker_check_queries (c : SyscallConsts) (getrlimit : Int → Except Errno Rlimit)
    (uc : UlimitChecker) :
    (UlimitChecker.Check c getrlimit uc).2.head? =
      some (.Getrlimit (mapIndex (limitsByName c) uc.Item 0)) := by
  unfold UlimitChecker.Check
  simp only [ulimitChecker_limit_ne_neg_one, Bool.false_and, Bool.false_eq_true, if_false]
  split <;> (cases getrlimit (mapIndex (limitsByName c) uc.Item 0) <;> rfl)

/-! ## Lemmas on texts -/

/-- A text is contained in itself followed by any other text. -/
theorem textContains_append_left (a b : String) : textContains (a ++ b) a := by
  unfold textContains
  rw [String.data_append]
  exact (List.prefix_append _ _).isInfix

/-- What the second text contains, the two texts one after the other contain. -/
theorem textContains_append_right (a b part : String) (h : textContains b part) :
    textContains (a ++ b) part := by
  unfold textContains at h ⊢
  rw [String.data_append]
  exact h.trans (List.suffix_append _ _).isInfix

/-! ## The claims -/

/-- C1: for every path, if `os.Stat` reports that the path does not exist, the
checker with `Exists = true` returns a non-nil error and the checker with
`Exists = false` returns nil; if `os.Stat` succeeds, the checker with
`Exists = true` returns nil and the one with `Exists = false` a non-nil error. -/
theorem file_check_follows_stat (stat : String → Option Errno) (p : String) :
    (os.IsNotExist (stat p) = true →
      (FileChecker.Check stat { Exists := true, Name := p }).1 ≠ none ∧
      (FileChecker.Check stat { Exists := false, Name := p }).1 = none) ∧
    (stat p = none →
      (FileChecker.Check stat { Exists := true, Name := p }).1 = none ∧
      (FileChecker.Check stat { Exists := false, Name := p }).1 ≠ none) := by
  constructor
  · intro h
    simp [fileChecker_check_fst, h]
  · intro h
    simp [fileChecker_check_fst, h, os.IsNotExist]

/-- Witness of C1: a path that is missing and a path that is present. -/
theorem file_check_follows_stat_witness :
    ((FileChecker.Check (fun _ => some ENOENT) { Exists := true, Name := "/missing" }).1 ≠ none ∧
      (FileChecker.Check (fun _ => some ENOENT) { Exists := false, Name := "/missing" }).1 = none) ∧
    ((FileChecker.Check (fun _ => none) { Exists := true, Name := "/etc" }).1 = none ∧
      (FileChecker.Check (fun _ => none) { Exists := false, Name := "/etc" }).1 ≠ none) :=
  ⟨(file_check_follows_stat (fun _ => some ENOENT) "/missing").1 (by decide),
   (file_check_follows_stat (fun _ => none) "/etc").2 rfl⟩

/-- C2, as stated, fails: called with a map that holds a string under "name" and
`Exists: true`, the constructor registered as "file-does-not-exist" returns a
`FileChecker` with `Exists = true`; the assignment of line 14 has put
`exists: false` into the map. -/
theorem file_does_not_exist_case_variant_counterexample :
    mapGet availableChecks "file-does-not-exist" = some fileDoesNotExistConstructor ∧
    mapGet [("name", Value.str "/tmp/x"), ("Exists", Value.bool true)] "name"
      = some (.str "/tmp/x") ∧
    fileDoesNotExistConstructor (some [("name", .str "/tmp/x"), ("Exists", .bool true)])
      = .returned ((some (.file { Exists := true, Name := "/tmp/x" }), none),
          some [("exists", .bool false), ("name", .str "/tmp/x"), ("Exists", .bool true)]) := by
  refine ⟨?_, by decide, by decide⟩
  simp [availableChecks, init, mapSet, mapGet]

/-- C2, amended: for every argument map with a string under "name" and without a
second spelling of "name" or "exists" (a key that differs from them in letter case
only), the constructor registered as "file-does-not-exist" returns a `FileChecker`
with that name and `Exists = false`, whatever the map holds under "exists". -/
theorem file_does_not_exist_forces_false (args : Args) (n : String)
    (hn : mapGet args "name" = some (.str n))
    (hname : noCaseVariant args "name") (hexists : noCaseVariant args "exists") :
    ∃ ctor : Constructor, mapGet availableChecks "file-does-not-exist" = some ctor ∧
      ctor (some args) = .returned ((some (.file { Exists := false, Name := n }), none),
        some (mapSet args "exists" (.bool false))) := by
  refine ⟨fileDoesNotExistConstructor, ?_, ?_⟩
  · simp [availableChecks, init, mapSet, mapGet]
  · have hn1 : mapGet (mapSet args "exists" (.bool false)) "name" = some (.str n) := by
      rw [mapGet_mapSet_of_ne _ _ _ _ (by decide)]
      exact hn
    have hname1 := noCaseVariant_mapSet args "name" "exists" (.bool false) (by decide) hname
    have hexists1 :=
      noCaseVariant_mapSet args "exists" "exists" (.bool false) (fun _ => rfl) hexists
    simp only [fileDoesNotExistConstructor]
    rw [fileChecker_fromArgs_of_name _ _ n hn1 hname1 hexists1, mapGet_mapSet_self]

/-- Witness of the amended C2: a map that asks for `exists: true`. -/
theorem file_does_not_exist_forces_false_witness :
    ∃ ctor : Constructor, mapGet availableChecks "file-does-not-exist" = some ctor ∧
      ctor (some [("name", .str "/tmp/x"), ("exists", .bool true)])
        = .returned ((some (.file { Exists := false, Name := "/tmp/x" }), none),
            some (mapSet [("name", .str "/tmp/x"), ("exists", .bool true)] "exists"
              (.bool false))) :=
  file_does_not_exist_forces_false [("name", .str "/tmp/x"), ("exists", .bool true)] "/tmp/x"
    (by decide) (by decide) (by decide)

/-- C3, as stated, fails: called with a map that holds `exists: false` and
`Exists: true`, the constructor registered as "file-exists" returns
`Exists = true`, not the boolean supplied under "exists"; called with a map that
holds a second name under "Name", it returns that one, not the string under
"name". -/
theorem file_exists_case_variant_counterexample :
    mapGet availableChecks "file-exists" = some fileExistsConstructor ∧
    mapGet [("name", Value.str "/tmp/x"), ("exists", Value.bool false),
        ("Exists", Value.bool true)] "exists" = some (.bool false) ∧
    fileExistsConstructor
        (some [("name", .str "/tmp/x"), ("exists", .bool false), ("Exists", .bool true)])
      = .returned ((some (.file { Exists := true, Name := "/tmp/x" }), none),
          some [("name", .str "/tmp/x"), ("exists", .bool false), ("Exists", .bool true)]) ∧
    mapGet [("name", Value.str "/tmp/x"), ("Name", Value.str "/tmp/y")] "name"
      = some (.str "/tmp/x") ∧
    fileExistsConstructor (some [("name", .str "/tmp/x"), ("Name", .str "/tmp/y")])
      = .returned ((some (.file { Exists := true, Name := "/tmp/y" }), none),
          some [("name", .str "/tmp/x"), ("Name", .str "/tmp/y")]) := by
  refine ⟨?_, by decide, by decide, by decide, by decide⟩
  simp [availableChecks, init, mapSet, mapGet]

/-- C3, amended: for every argument map with a string under "name" and without a
second spelling of "name" or "exists" (a key that differs from them in letter case
only), the constructor registered as "file-exists" returns a `FileChecker` with
that name, whose `Exists` is true when the map has no key "exists" and is the
supplied boolean when it has one; the map is left as it was. -/
theorem file_exists_default_and_override (args : Args) (n : String)
    (hn : mapGet args "name" = some (.str n))
    (hname : noCaseVariant args "name") (hexists : noCaseVariant args "exists") :
    ∃ ctor : Constructor, mapGet availableChecks "file-exists" = some ctor ∧
      (mapGet args "exists" = none →
        ctor (some args)
          = .returned ((some (.file { Exists := true, Name := n }), none), some args)) ∧
      (∀ b : Bool, mapGet args "exists" = some (.bool b) →
        ctor (some args)
          = .returned ((some (.file { Exists := b, Name := n }), none), some args)) := by
  refine ⟨fileExistsConstructor, ?_, ?_, ?_⟩
  · simp [availableChecks, init, mapSet, mapGet]
  · intro hex
    simp only [fileExistsConstructor, entries]
    rw [fileChecker_fromArgs_of_name _ _ n hn hname hexists, hex]
  · intro b hex
    simp only [fileExistsConstructor, entries]
    rw [fileChecker_fromArgs_of_name _ _ n hn hname hexists, hex]

/-- Witness of the amended C3: a map without "exists", and a map with an explicit
`exists: false`. -/
theorem file_exists_default_and_override_witness :
    (∃ ctor : Constructor, mapGet availableChecks "file-exists" = some ctor ∧
      ctor (some [("name", .str "/tmp/x")])
        = .returned ((some (.file { Exists := true, Name := "/tmp/x" }), none),
            some [("name", .str "/tmp/x")])) ∧
    (∃ ctor : Constructor, mapGet availableChecks "file-exists" = some ctor ∧
      ctor (some [("name", .str "/tmp/x"), ("exists", .bool false)])
        = .returned ((some (.file { Exists := false, Name := "/tmp/x" }), none),
            some [("name", .str "/tmp/x"), ("exists", .bool false)])) :=
  ⟨match file_exists_default_and_override [("name", .str "/tmp/x")] "/tmp/x"
      (by decide) (by decide) (by decide) with
    | ⟨ctor, hreg, hdefault, _⟩ => ⟨ctor, hreg, hdefault (by decide)⟩,
   match file_exists_default_and_override [("name", .str "/tmp/x"), ("exists", .bool false)]
      "/tmp/x" (by decide) (by decide) (by decide) with
    | ⟨ctor, hreg, _, hgiven⟩ => ⟨ctor, hreg, hgiven false (by decide)⟩⟩

/-- C4: an argument map that lacks a required key ("name" for
`FileChecker.FromArgs`, "item" or "limit" for `UlimitChecker.FromArgs`) makes
`FromArgs` return a nil checker together with a `MissingArgument` error, which
names the first required key that is absent. -/
theorem fromArgs_missing_required_key (args : Args) :
    (mapGet args "name" = none → ∀ fc : FileChecker,
      FileChecker.FromArgs fc args = (none, some (.MissingArgument "name"))) ∧
    (mapGet args "item" = none → ∀ uc : UlimitChecker,
      UlimitChecker.FromArgs uc args = (none, some (.MissingArgument "item"))) ∧
    (mapGet args "limit" = none → ∀ uc : UlimitChecker,
      UlimitChecker.FromArgs uc args =
        (none, some (.MissingArgument
          (if (mapGet args "item").isSome then "limit" else "item")))) := by
  refine ⟨?_, ?_, ?_⟩
  · intro h fc
    simp [FileChecker.FromArgs, requiredArgs, h]
  · intro h uc
    simp [UlimitChecker.FromArgs, requiredArgs, h]
  · intro h uc
    cases hi : mapGet args "item" with
    | none => simp [UlimitChecker.FromArgs, requiredArgs, hi]
    | some v => simp [UlimitChecker.FromArgs, requiredArgs, hi, h]

/-- Witness of C4: the empty map, and a map with "item" only. -/
theorem fromArgs_missing_required_key_witness :
    FileChecker.FromArgs { Exists := false, Name := "" } []
      = (none, some (.MissingArgument "name")) ∧
    UlimitChecker.FromArgs { Item := "", Limit := 0, IsHard := false } []
      = (none, some (.MissingArgument "item")) ∧
    UlimitChecker.FromArgs { Item := "", Limit := 0, IsHard := false }
      [("item", .str "nofile")] = (none, some (.MissingArgument "limit")) :=
  ⟨(fromArgs_missing_required_key []).1 rfl _,
   (fromArgs_missing_required_key []).2.1 rfl _,
   (fromArgs_missing_required_key [("item", .str "nofile")]).2.2 (by decide) _⟩

/-- C5, as stated, fails: with `os.Stat` failing with "permission denied", the
checker with `Exists = true` returns nil, and the checker with `Exists = false`
returns the "does exist and shouldn't" failure. -/
theorem file_check_permission_denied_counterexample :
    os.IsNotExist (some EACCES) = false ∧
    (FileChecker.Check (fun _ => some EACCES) { Exists := true, Name := "/root/secret" }).1
      = none ∧
    (FileChecker.Check (fun _ => some EACCES) { Exists := false, Name := "/root/secret" }).1
      = some (.Errorf "/root/secret does exist and shouldn't") := by
  refine ⟨by decide, by decide, by decide⟩

/-- C5, amended: for every `FileChecker` and every path whose `os.Stat` fails with
an error other than not-found, `Check` treats the path as existing: it returns nil
when `Exists` is true and the error "<Name> does exist and shouldn't" when `Exists`
is false. -/
theorem file_check_other_stat_error (stat : String → Option Errno) (fc : FileChecker)
    (e : Errno) (hs : stat fc.Name = some e) (hne : e ≠ ENOENT) :
    (FileChecker.Check stat fc).1 =
      if fc.Exists then none else some (.Errorf (fc.Name ++ " does exist and shouldn't")) := by
  have hnot : os.IsNotExist (stat fc.Name) = false := by
    simp [os.IsNotExist, hs, hne]
  rw [fileChecker_check_fst, hnot]
  cases fc.Exists <;> simp

/-- Witness of the amended C5: "permission denied" on a path expected to exist. -/
theorem file_check_other_stat_error_witness :
    (FileChecker.Check (fun _ => some EACCES) { Exists := true, Name := "/root/secret" }).1
      = if (FileChecker.mk true "/root/secret").Exists then none
        else some (.Errorf ((FileChecker.mk true "/root/secret").Name
          ++ " does exist and shouldn't")) :=
  file_check_other_stat_error (fun _ => some EACCES) { Exists := true, Name := "/root/secret" }
    EACCES rfl (by decide)

/-- C6, as stated, fails: "bogus-name" has no entry in `limitsByName`, and `Check`
for that item calls `Getrlimit` with `0`, the resource whose identifier is the
zero value. -/
theorem ulimit_unknown_item_counterexample :
    mapGet (limitsByName linuxConsts) "bogus-name" = none ∧
    (UlimitChecker.Check linuxConsts (fun _ => .ok { Cur := 1024, Max := 4096 })
        { Item := "bogus-name", Limit := 10, IsHard := true }).2.head?
      = some (.Getrlimit 0) := by
  refine ⟨by decide, by decide⟩

/-- C6, amended: for every `UlimitChecker` whose `Item` is not a key of
`limitsByName`, on every platform and for every outcome of `Getrlimit`, `Check`
makes no test of the item: the index expression `limitsByName[uc.Item]` is the
zero value, and the first thing `Check` does is to call `Getrlimit` for the
resource whose identifier is `0`. -/
theorem ulimit_unknown_item_queries_resource_zero (c : SyscallConsts)
    (getrlimit : Int → Except Errno Rlimit) (uc : UlimitChecker)
    (h : mapGet (limitsByName c) uc.Item = none) :
    mapIndex (limitsByName c) uc.Item 0 = 0 ∧
    (UlimitChecker.Check c getrlimit uc).2.head? = some (.Getrlimit 0) := by
  have hzero : mapIndex (limitsByName c) uc.Item 0 = 0 := by
    simp [mapIndex, h]
  refine ⟨hzero, ?_⟩
  rw [ulimitChecker_check_queries, hzero]

/-- Witness of the amended C6: the item "bogus-name" on the sample platform. -/
theorem ulimit_unknown_item_queries_resource_zero_witness :
    mapIndex (limitsByName linuxConsts) "bogus-name" 0 = 0 ∧
    (UlimitChecker.Check linuxConsts (fun _ => .ok { Cur := 1024, Max := 4096 })
        { Item := "bogus-name", Limit := 10, IsHard := true }).2.head?
      = some (.Getrlimit 0) :=
  ulimit_unknown_item_queries_resource_zero linuxConsts
    (fun _ => .ok { Cur := 1024, Max := 4096 })
    { Item := "bogus-name", Limit := 10, IsHard := true } (by decide)

/-- C7, the code at a recognised item and a finite threshold: with "nofile",
`Limit = 10`, `IsHard = true` and an observed pair (soft 1024, hard 4096), `Check`
returns a failure that reports the observed value `0`; for every platform, every
outcome of `Getrlimit` and every checker, `Check` returns nil exactly when `Limit`
is `0`. -/
theorem ulimit_check_ignores_observed_limit :
    UlimitChecker.Check linuxConsts (fun _ => .ok { Cur := 1024, Max := 4096 })
        { Item := "nofile", Limit := 10, IsHard := true }
      = (some (.Errorf "Process  ulimit (0) of type \"nofile\" is lower than required (10)"),
         [.Getrlimit 7]) ∧
    (∀ (c : SyscallConsts) (getrlimit : Int → Except Errno Rlimit) (uc : UlimitChecker),
      (UlimitChecker.Check c getrlimit uc).1 = none ↔ uc.Limit = 0) := by
  refine ⟨by decide, ?_⟩
  intro c getrlimit uc
  rw [ulimitChecker_check_fst]
  by_cases h : 0 < uc.Limit
  · simp [h]; omega
  · simp [h]; omega

/-- C8, the code at the unlimited threshold: no `UlimitChecker` holds `-1` in its
`Limit`; with the hard limit of "nofile" observed as `RLIM_INFINITY`, the checker
whose `Limit` is `2^64 - 1` (the `uint64` that `-1` converts to) and whose
`IsHard` is true returns a failure, as does every checker with a `Limit` other
than `0`. -/
theorem ulimit_unlimited_threshold_fails :
    (∀ uc : UlimitChecker, (uc.Limit : Int) ≠ -1) ∧
    (UlimitChecker.Check linuxConsts
        (fun _ => .ok { Cur := 1024, Max := (linuxConsts.RLIM_INFINITY).toNat })
        { Item := "nofile", Limit := 2 ^ 64 - 1, IsHard := true }).1
      = some (.Errorf
          "Process  ulimit (0) of type \"nofile\" is lower than required (18446744073709551615)") ∧
    (∀ l : Nat, l ≠ 0 →
      (UlimitChecker.Check linuxConsts
        (fun _ => .ok { Cur := 1024, Max := (linuxConsts.RLIM_INFINITY).toNat })
        { Item := "nofile", Limit := l, IsHard := true }).1 ≠ none) := by
  refine ⟨fun uc => by omega, by decide, ?_⟩
  intro l hl
  rw [ulimitChecker_check_fst]
  have h : 0 < l := Nat.pos_of_ne_zero hl
  simp [h]

/-- C9, the code on maps with valid "item" and "limit": `UlimitChecker.FromArgs`
returns `IsHard = false` when the map has no key "type", when it has
`type: "hard"` and when it has `type: "soft"`. -/
theorem ulimit_fromArgs_never_sets_hard :
    UlimitChecker.FromArgs { Item := "", Limit := 0, IsHard := false }
        [("item", .str "nofile"), ("limit", .int 10)]
      = (some (.ulimit { Item := "nofile", Limit := 10, IsHard := false }), none) ∧
    UlimitChecker.FromArgs { Item := "", Limit := 0, IsHard := false }
        [("item", .str "nofile"), ("limit", .int 10), ("type", .str "hard")]
      = (some (.ulimit { Item := "nofile", Limit := 10, IsHard := false }), none) ∧
    UlimitChecker.FromArgs { Item := "", Limit := 0, IsHard := false }
        [("item", .str "nofile"), ("limit", .int 10), ("type", .str "soft")]
      = (some (.ulimit { Item := "nofile", Limit := 10, IsHard := false }), none) := by
  refine ⟨by decide, by decide, by decide⟩

/-- C10, the registry after initialisation: it has constructors under
"file-exists" and "file-does-not-exist" and none under "ulimit"; `init` leaves the
entry "ulimit" of every registry as it was. -/
theorem registry_has_no_ulimit :
    (mapGet availableChecks "file-exists").isSome = true ∧
    (mapGet availableChecks "file-does-not-exist").isSome = true ∧
    (mapGet availableChecks "ulimit").isSome = false ∧
    (∀ reg : Registry, mapGet (init reg) "ulimit" = mapGet reg "ulimit") := by
  refine ⟨by decide, by decide, by decide, ?_⟩
  intro reg
  unfold init
  rw [mapGet_mapSet_of_ne _ _ _ _ (by decide), mapGet_mapSet_of_ne _ _ _ _ (by decide)]

/-- The registry after initialisation holds the two constructors of file.go and
nothing else. -/
theorem availableChecks_cases (name : String) (ctor : Constructor)
    (h : mapGet availableChecks name = some ctor) :
    (name = "file-exists" ∧ ctor = fileExistsConstructor) ∨
    (name = "file-does-not-exist" ∧ ctor = fileDoesNotExistConstructor) := by
  have hreg : availableChecks =
      [("file-does-not-exist", fileDoesNotExistConstructor),
       ("file-exists", fileExistsConstructor)] := by
    simp [availableChecks, init, mapSet]
  rw [hreg] at h
  simp only [mapGet] at h
  by_cases h1 : "file-does-not-exist" = name
  · rw [if_pos h1] at h
    exact Or.inr ⟨h1.symm, (Option.some.inj h).symm⟩
  · rw [if_neg h1] at h
    by_cases h2 : "file-exists" = name
    · rw [if_pos h2] at h
      exact Or.inl ⟨h2.symm, (Option.some.inj h).symm⟩
    · rw [if_neg h2] at h
      exact absurd h (by simp)

/-- C11, as stated, fails: the constructor registered as "file-does-not-exist",
called with a map that holds `exists: true`, leaves `exists: false` in that map;
called with a map without "exists", it leaves the key added. -/
theorem constructor_changes_args_counterexample :
    mapGet availableChecks "file-does-not-exist" = some fileDoesNotExistConstructor ∧
    fileDoesNotExistConstructor (some [("name", .str "/tmp/x"), ("exists", .bool true)])
      = .returned ((some (.file { Exists := false, Name := "/tmp/x" }), none),
          some [("exists", .bool false), ("name", .str "/tmp/x")]) ∧
    mapGet [("name", Value.str "/tmp/x"), ("exists", Value.bool true)] "exists"
      = some (.bool true) ∧
    mapGet [("exists", Value.bool false), ("name", Value.str "/tmp/x")] "exists"
      = some (.bool false) ∧
    fileDoesNotExistConstructor (some [("name", .str "/tmp/x")])
      = .returned ((some (.file { Exists := false, Name := "/tmp/x" }), none),
          some [("exists", .bool false), ("name", .str "/tmp/x")]) ∧
    mapGet [("name", Value.str "/tmp/x")] "exists" = none := by
  refine ⟨?_, by decide, by decide, by decide, by decide, by decide⟩
  simp [availableChecks, init, mapSet, mapGet]

/-- C11, amended: the registry holds the constructors "file-exists" and
"file-does-not-exist" only.  For every map value, "file-exists" returns and leaves
the map value as it was.  For every map that is not nil, "file-does-not-exist"
returns, every key other than "exists" has the same value afterwards as before,
and "exists" is left set to false; on the nil map it panics at the assignment and
returns nothing. -/
theorem constructor_changes_only_exists (name : String) (ctor : Constructor)
    (m : Option Args) (hreg : mapGet availableChecks name = some ctor) :
    (name = "file-exists" ∨ name = "file-does-not-exist") ∧
    (name = "file-exists" → ∃ result, ctor m = .returned (result, m)) ∧
    (name = "file-does-not-exist" →
      (m = none → ∃ msg, ctor m = .panicked msg) ∧
      (∀ args : Args, m = some args →
        ∃ result after, ctor m = .returned (result, some after) ∧
          (∀ key : String, key ≠ "exists" → mapGet after key = mapGet args key) ∧
          mapGet after "exists" = some (.bool false))) := by
  rcases availableChecks_cases name ctor hreg with ⟨hname, hctor⟩ | ⟨hname, hctor⟩
  · subst hname hctor
    refine ⟨Or.inl rfl, fun _ => ⟨_, rfl⟩, fun h => absurd h (by decide)⟩
  · subst hname hctor
    refine ⟨Or.inr rfl, fun h => absurd h (by decide), fun _ => ⟨?_, ?_⟩⟩
    · intro hm
      subst hm
      exact ⟨_, rfl⟩
    · intro args hm
      subst hm
      refine ⟨_, mapSet args "exists" (.bool false), rfl, fun key hkey => ?_, ?_⟩
      · exact mapGet_mapSet_of_ne args "exists" key (.bool false) hkey
      · exact mapGet_mapSet_self args "exists" (.bool false)

/-- Witness of the amended C11: the "file-does-not-exist" constructor on a map that
holds `exists: true`, and on the nil map. -/
theorem constructor_changes_only_exists_witness :
    (∃ result after,
      fileDoesNotExistConstructor (some [("name", .str "/tmp/x"), ("exists", .bool true)])
        = .returned (result, some after) ∧
      (∀ key : String, key ≠ "exists" →
        mapGet after key
          = mapGet [("name", Value.str "/tmp/x"), ("exists", Value.bool true)] key) ∧
      mapGet after "exists" = some (.bool false)) ∧
    (∃ msg, fileDoesNotExistConstructor none = .panicked msg) :=
  ⟨((constructor_changes_only_exists "file-does-not-exist" fileDoesNotExistConstructor
      (some [("name", .str "/tmp/x"), ("exists", .bool true)])
      (by simp [availableChecks, init, mapSet, mapGet])).2.2 rfl).2 _ rfl,
   ((constructor_changes_only_exists "file-does-not-exist" fileDoesNotExistConstructor
      none (by simp [availableChecks, init, mapSet, mapGet])).2.2 rfl).1 rfl⟩

set_option maxRecDepth 8192 in
/-- C12, the code at a failing check: with "nofile", `Limit = 10`, `IsHard = true`
and an observed pair (soft 1024, hard 4096) the error text names the item and the
required value, but holds neither "hard" nor the observed value 4096; with
`Limit = 2^64 - 1` the required value is printed as a number, not as
"unlimited". -/
theorem ulimit_failure_text_lacks_selector_and_observed :
    (UlimitChecker.Check linuxConsts (fun _ => .ok { Cur := 1024, Max := 4096 })
        { Item := "nofile", Limit := 10, IsHard := true }).1
      = some (.Errorf "Process  ulimit (0) of type \"nofile\" is lower than required (10)") ∧
    textContains "Process  ulimit (0) of type \"nofile\" is lower than required (10)" "nofile" ∧
    textContains "Process  ulimit (0) of type \"nofile\" is lower than required (10)" "10" ∧
    ¬ textContains "Process  ulimit (0) of type \"nofile\" is lower than required (10)" "hard" ∧
    ¬ textContains "Process  ulimit (0) of type \"nofile\" is lower than required (10)" "4096" ∧
    (UlimitChecker.Check linuxConsts (fun _ => .ok { Cur := 1024, Max := 4096 })
        { Item := "nofile", Limit := 2 ^ 64 - 1, IsHard := true }).1
      = some (.Errorf
          "Process  ulimit (0) of type \"nofile\" is lower than required (18446744073709551615)") ∧
    ¬ textContains
        "Process  ulimit (0) of type \"nofile\" is lower than required (18446744073709551615)"
        "unlimited" := by
  refine ⟨by decide, by decide, by decide, by decide, by decide, by decide, by decide⟩

/-- C13, the code when `Getrlimit` fails (here with error 22, "invalid
argument"): `UlimitChecker.Check` writes the line "Error Getting Rlimit" to
standard output and returns nil (for "nofile" and `Limit = 0`); for every checker a failing `Getrlimit` puts that line among the
events.  `FileChecker.Check` makes its one call of `os.Stat` and prints
nothing. -/
theorem ulimit_check_prints_getrlimit_error :
    UlimitChecker.Check linuxConsts (fun _ => .error 22)
        { Item := "nofile", Limit := 0, IsHard := true }
      = (none, [.Getrlimit 7, .Println "Error Getting Rlimit  invalid argument\n"]) ∧
    (∀ (c : SyscallConsts) (getrlimit : Int → Except Errno Rlimit) (uc : UlimitChecker)
        (e : Errno), getrlimit (mapIndex (limitsByName c) uc.Item 0) = .error e →
      Event.Println ("Error Getting Rlimit  " ++ e.Error ++ "\n")
        ∈ (UlimitChecker.Check c getrlimit uc).2) ∧
    (∀ (stat : String → Option Errno) (fc : FileChecker),
      (FileChecker.Check stat fc).2 = [.Stat fc.Name]) := by
  refine ⟨by decide, ?_, ?_⟩
  · intro c getrlimit uc e he
    unfold UlimitChecker.Check
    simp only [ulimitChecker_limit_ne_neg_one, Bool.false_and, Bool.false_eq_true, if_false, he]
    split <;> simp
  · intro stat fc
    unfold FileChecker.Check
    simp only []
    split
    · rfl
    · split <;> rfl

/-- C14: for every path that `os.Stat` reports as not existing, the checker with
`Exists = true` returns the error whose text is the path followed by
" doesn't exist and should"; the text contains the path and "doesn't exist". -/
theorem file_missing_error_text (stat : String → Option Errno) (p : String)
    (h : os.IsNotExist (stat p) = true) :
    (FileChecker.Check stat { Exists := true, Name := p }).1
      = some (.Errorf (p ++ " doesn't exist and should")) ∧
    textContains (p ++ " doesn't exist and should") p ∧
    textContains (p ++ " doesn't exist and should") "doesn't exist" := by
  refine ⟨?_, textContains_append_left _ _, textContains_append_right _ _ _ (by decide)⟩
  simp [fileChecker_check_fst, h]

/-- Witness of C14: the path "/definitely/missing/path". -/
theorem file_missing_error_text_witness :
    (FileChecker.Check (fun _ => some ENOENT)
        { Exists := true, Name := "/definitely/missing/path" }).1
      = some (.Errorf ("/definitely/missing/path" ++ " doesn't exist and should")) ∧
    textContains ("/definitely/missing/path" ++ " doesn't exist and should")
      "/definitely/missing/path" ∧
    textContains ("/definitely/missing/path" ++ " doesn't exist and should") "doesn't exist" :=
  file_missing_error_text (fun _ => some ENOENT) "/definitely/missing/path" (by decide)

/-- C15, as stated, fails: for the existing path "/etc" the checker with
`Exists = false` returns the text "/etc does exist and shouldn't", which does not
contain the word "exists". -/
theorem file_present_error_text_counterexample :
    (FileChecker.Check (fun _ => none) { Exists := false, Name := "/etc" }).1
      = some (.Errorf "/etc does exist and shouldn't") ∧
    ¬ textContains "/etc does exist and shouldn't" "exists" := by
  refine ⟨by decide, by decide⟩

/-- C15, amended: for every path that exists (`os.Stat` succeeds), the checker with
`Exists = false` returns the error whose text is the path followed by
" does exist and shouldn't"; the text contains the path and the words
"does exist". -/
theorem file_present_error_text (stat : String → Option Errno) (p : String)
    (h : stat p = none) :
    (FileChecker.Check stat { Exists := false, Name := p }).1
      = some (.Errorf (p ++ " does exist and shouldn't")) ∧
    textContains (p ++ " does exist and shouldn't") p ∧
    textContains (p ++ " does exist and shouldn't") "does exist" := by
  refine ⟨?_, textContains_append_left _ _, textContains_append_right _ _ _ (by decide)⟩
  simp [fileChecker_check_fst, h, os.IsNotExist]

/-- Witness of the amended C15: the existing path "/etc". -/
theorem file_present_error_text_witness :
    (FileChecker.Check (fun _ => none) { Exists := false, Name := "/etc" }).1
      = some (.Errorf ("/etc" ++ " does exist and shouldn't")) ∧
    textContains ("/etc" ++ " does exist and shouldn't") "/etc" ∧
    textContains ("/etc" ++ " does exist and shouldn't") "does exist" :=
  file_present_error_text (fun _ => none) "/etc" rfl

/-- C17: `FileChecker.Check` classifies the outcome of `os.Stat` by
`os.IsNotExist` alone: for every outcome that is not the not-found error (success
or any other error) it returns nil when `Exists` is true and the error
"<Name> does exist and shouldn't" when `Exists` is false; and it returns an error
exactly when `Exists` differs from the negation of `os.IsNotExist`. -/
theorem file_check_single_test (stat : String → Option Errno) (fc : FileChecker) :
    (os.IsNotExist (stat fc.Name) = false →
      (fc.Exists = true → (FileChecker.Check stat fc).1 = none) ∧
      (fc.Exists = false → (FileChecker.Check stat fc).1
        = some (.Errorf (fc.Name ++ " does exist and shouldn't")))) ∧
    ((FileChecker.Check stat fc).1 ≠ none ↔
      fc.Exists ≠ !os.IsNotExist (stat fc.Name)) := by
  rw [fileChecker_check_fst]
  cases hn : os.IsNotExist (stat fc.Name) <;> cases he : fc.Exists <;> simp

/-- Witness of C17: "permission denied" with `Exists = false`, which is neither
success nor not-found. -/
theorem file_check_single_test_witness :
    (FileChecker.Check (fun _ => some EACCES) { Exists := false, Name := "/root/secret" }).1
      = some (.Errorf ("/root/secret" ++ " does exist and shouldn't")) :=
  ((file_check_single_test (fun _ => some EACCES)
      { Exists := false, Name := "/root/secret" }).1 (by decide)).2 rfl

/-- C18: for every argument map (a map that holds a string under "name" is not
nil), the constructor registered as "file-does-not-exist" returns what the
constructor registered as "file-exists" returns on the same map with "exists" set
to false; with a string under "name" and no second spelling of "name" or "exists"
in the map, both return the `FileChecker` of that name with `Exists = false` and
no error. -/
theorem file_does_not_exist_refines_file_exists (args : Args) :
    ∃ forced plain : Constructor,
      mapGet availableChecks "file-does-not-exist" = some forced ∧
      mapGet availableChecks "file-exists" = some plain ∧
      forced (some args) = plain (some (mapSet args "exists" (.bool false))) ∧
      forced (some args) = fileExistsOnExistsFalse args ∧
      (∀ n : String, mapGet args "name" = some (.str n) →
        noCaseVariant args "name" → noCaseVariant args "exists" →
        forced (some args)
          = .returned ((some (.file { Exists := false, Name := n }), none),
              some (mapSet args "exists" (.bool false)))) := by
  refine ⟨fileDoesNotExistConstructor, fileExistsConstructor, ?_, ?_, rfl, rfl, ?_⟩
  · simp [availableChecks, init, mapSet, mapGet]
  · simp [availableChecks, init, mapSet, mapGet]
  · intro n hn hname hexists
    have hn1 : mapGet (mapSet args "exists" (.bool false)) "name" = some (.str n) := by
      rw [mapGet_mapSet_of_ne _ _ _ _ (by decide)]
      exact hn
    have hname1 := noCaseVariant_mapSet args "name" "exists" (.bool false) (by decide) hname
    have hexists1 :=
      noCaseVariant_mapSet args "exists" "exists" (.bool false) (fun _ => rfl) hexists
    simp only [fileDoesNotExistConstructor]
    rw [fileChecker_fromArgs_of_name _ _ n hn1 hname1 hexists1, mapGet_mapSet_self]

/-- Witness of C18: a map that asks for `exists: true`. -/
theorem file_does_not_exist_refines_file_exists_witness :
    ∃ forced plain : Constructor,
      mapGet availableChecks "file-does-not-exist" = some forced ∧
      mapGet availableChecks "file-exists" = some plain ∧
      forced (some [("name", .str "/tmp/x"), ("exists", .bool true)])
        = plain (some (mapSet [("name", .str "/tmp/x"), ("exists", .bool true)] "exists"
            (.bool false))) ∧
      forced (some [("name", .str "/tmp/x"), ("exists", .bool true)])
        = .returned ((some (.file { Exists := false, Name := "/tmp/x" }), none),
            some (mapSet [("name", .str "/tmp/x"), ("exists", .bool true)] "exists"
              (.bool false))) :=
  match file_does_not_exist_refines_file_exists
      [("name", .str "/tmp/x"), ("exists", .bool true)] with
  | ⟨forced, plain, hforced, hplain, hsame, _, hvalue⟩ =>
    ⟨forced, plain, hforced, hplain, hsame,
      hvalue "/tmp/x" (by decide) (by decide) (by decide)⟩

end Checks
